import Mathlib

/-!
Verification of a small real-time 3D scene viewer: a two-pass (shadow pass,
color pass) renderer driven by a first-person camera.  The definitions below
are a shallow embedding of the Python sources (`camera.py`, `model.py`,
`scene.py`, `scene_renderer.py`, `vao.py`, `vbo.py`, `shader_program.py`,
`light.py`, `main.py`): GPU math (`glm`) is modelled over `ℝ`; per-frame
uniform writes, draw calls and teardown releases are modelled as explicit
event traces.  Definitions come first, followed by all theorems.
-/

namespace SceneViewer

/-! ## Vectors and glm matrix helpers -/

/-- A 3-component real vector (`glm.vec3`). -/
structure Vec3 where
  x : ℝ
  y : ℝ
  z : ℝ

instance : Add Vec3 :=
  ⟨fun a b => ⟨a.x + b.x, a.y + b.y, a.z + b.z⟩⟩

instance : Sub Vec3 :=
  ⟨fun a b => ⟨a.x - b.x, a.y - b.y, a.z - b.z⟩⟩

instance : Neg Vec3 :=
  ⟨fun a => ⟨-a.x, -a.y, -a.z⟩⟩

instance : SMul ℝ Vec3 :=
  ⟨fun k v => ⟨k * v.x, k * v.y, k * v.z⟩⟩

/-- Dot product (`glm.dot`). -/
def Vec3.dot (a b : Vec3) : ℝ :=
  a.x * b.x + a.y * b.y + a.z * b.z

/-- Cross product (`glm.cross`). -/
def Vec3.cross (a b : Vec3) : Vec3 :=
  ⟨a.y * b.z - a.z * b.y, a.z * b.x - a.x * b.z, a.x * b.y - a.y * b.x⟩

/-- `glm.normalize`: scale a vector by the inverse square root of its squared
length. -/
noncomputable def Vec3.normalize (v : Vec3) : Vec3 :=
  (1 / Real.sqrt (Vec3.dot v v)) • v

/-- Degrees to radians (`glm.radians`). -/
noncomputable def radians (deg : ℝ) : ℝ :=
  deg * (Real.pi / 180)

/-- 4×4 real matrix (`glm.mat4`), row/column indexed in math convention:
entry `i j` is row `i`, column `j` (glm's `m[c][r]` is entry `r c` here). -/
abbrev M4 : Type :=
  Matrix (Fin 4) (Fin 4) ℝ

/-- `glm.lookAt` (right-handed): rows are the camera basis, the last column
holds the translation. -/
noncomputable def lookAt (eye center up : Vec3) : M4 :=
  let f := Vec3.normalize (center - eye)
  let s := Vec3.normalize (Vec3.cross f up)
  let u := Vec3.cross s f
  Matrix.of
    ![![s.x, s.y, s.z, -(Vec3.dot s eye)],
      ![u.x, u.y, u.z, -(Vec3.dot u eye)],
      ![-f.x, -f.y, -f.z, Vec3.dot f eye],
      ![0, 0, 0, 1]]

/-- `glm.perspective` (right-handed, [-1,1] clip depth). -/
noncomputable def perspective (fovy aspect zNear zFar : ℝ) : M4 :=
  let t := Real.tan (fovy / 2)
  Matrix.of
    ![![1 / (aspect * t), 0, 0, 0],
      ![0, 1 / t, 0, 0],
      ![0, 0, -(zFar + zNear) / (zFar - zNear), -(2 * zFar * zNear) / (zFar - zNear)],
      ![0, 0, -1, 0]]

/-! ## Model matrix (`model.py`, `BaseModel.get_model_matrix`) -/

/-- The translation matrix appended by `glm.translate`. -/
def translateM (v : Vec3) : M4 :=
  Matrix.of
    ![![1, 0, 0, v.x],
      ![0, 1, 0, v.y],
      ![0, 0, 1, v.z],
      ![0, 0, 0, 1]]

/-- The rotation matrix appended by `glm.rotate`: Rodrigues' formula about the
normalized axis (glm normalizes the axis argument). -/
noncomputable def rotationMatrix (angle : ℝ) (v : Vec3) : M4 :=
  let c := Real.cos angle
  let s := Real.sin angle
  let a := Vec3.normalize v
  let t : Vec3 := (1 - c) • a
  Matrix.of
    ![![c + t.x * a.x, t.y * a.x - s * a.z, t.z * a.x + s * a.y, 0],
      ![t.x * a.y + s * a.z, c + t.y * a.y, t.z * a.y - s * a.x, 0],
      ![t.x * a.z - s * a.y, t.y * a.z + s * a.x, c + t.z * a.z, 0],
      ![0, 0, 0, 1]]

/-- The scale matrix appended by `glm.scale`. -/
def scaleM (v : Vec3) : M4 :=
  Matrix.of
    ![![v.x, 0, 0, 0],
      ![0, v.y, 0, 0],
      ![0, 0, v.z, 0],
      ![0, 0, 0, 1]]

/-- `glm.translate(m, v)` right-multiplies `m` by the translation matrix. -/
def glmTranslate (m : M4) (v : Vec3) : M4 :=
  m * translateM v

/-- `glm.rotate(m, angle, axis)` right-multiplies `m` by the rotation
matrix. -/
noncomputable def glmRotate (m : M4) (angle : ℝ) (axis : Vec3) : M4 :=
  m * rotationMatrix angle axis

/-- `glm.scale(m, v)` right-multiplies `m` by the scale matrix. -/
def glmScale (m : M4) (v : Vec3) : M4 :=
  m * scaleM v

/-- `BaseModel.get_model_matrix`: start from the identity, translate by
`pos`, rotate about z by `rot.z`, about y by `rot.y`, about x by `rot.x`,
then scale. -/
noncomputable def get_model_matrix (pos rot scal : Vec3) : M4 :=
  let m : M4 := 1
  let m := glmTranslate m pos
  let m := glmRotate m rot.z ⟨0, 0, 1⟩
  let m := glmRotate m rot.y ⟨0, 1, 0⟩
  let m := glmRotate m rot.x ⟨1, 0, 0⟩
  glmScale m scal

/-- Reference z-axis rotation matrix (the `rotateZ` of the spec's composition
formula). -/
noncomputable def rotZ (a : ℝ) : M4 :=
  Matrix.of
    ![![Real.cos a, -Real.sin a, 0, 0],
      ![Real.sin a, Real.cos a, 0, 0],
      ![0, 0, 1, 0],
      ![0, 0, 0, 1]]

/-- Reference y-axis rotation matrix. -/
noncomputable def rotY (a : ℝ) : M4 :=
  Matrix.of
    ![![Real.cos a, 0, Real.sin a, 0],
      ![0, 1, 0, 0],
      ![-Real.sin a, 0, Real.cos a, 0],
      ![0, 0, 0, 1]]

/-- Reference x-axis rotation matrix. -/
noncomputable def rotX (a : ℝ) : M4 :=
  Matrix.of
    ![![1, 0, 0, 0],
      ![0, Real.cos a, -Real.sin a, 0],
      ![0, Real.sin a, Real.cos a, 0],
      ![0, 0, 0, 1]]

/-! ## Camera (`camera.py`) -/

/-- Camera constant `FOV = 50` (degrees). -/
def FOV : ℝ := 50

/-- Camera constant `NEAR = 0.1`. -/
def NEAR : ℝ := 0.1

/-- Camera constant `FAR = 100`. -/
def FAR : ℝ := 100

/-- Camera constant `SPEED = 0.01`. -/
def SPEED : ℝ := 0.01

/-- Camera constant `SENSITIVITY = 0.05`. -/
def SENSITIVITY : ℝ := 0.05

/-- The mutable state of `Camera`: position, orthonormal basis vectors,
yaw/pitch in degrees, and the cached view/projection matrices. -/
structure Camera where
  position : Vec3
  up : Vec3
  right : Vec3
  forward : Vec3
  yaw : ℝ
  pitch : ℝ
  m_view : M4
  m_proj : M4

/-- One frame of external input: the mouse delta from `pg.mouse.get_rel()`,
the held state of the six movement keys from `pg.key.get_pressed()`, and
`app.delta_time`. -/
structure CamInput where
  relX : ℝ
  relY : ℝ
  keyW : Bool
  keyS : Bool
  keyA : Bool
  keyD : Bool
  keyQ : Bool
  keyE : Bool
  deltaTime : ℝ

/-- `Camera.get_view_matrix`: `glm.lookAt(position, position + forward, up)`. -/
noncomputable def Camera.get_view_matrix (s : Camera) : M4 :=
  lookAt s.position (s.position + s.forward) s.up

/-- `Camera.get_projection_matrix`: fixed perspective from `FOV`, the window
aspect ratio (1600/900), `NEAR` and `FAR`. -/
noncomputable def Camera.get_projection_matrix : M4 :=
  perspective (radians FOV) (1600 / 900) NEAR FAR

/-- `Camera.__init__`: stores position, the default basis vectors
`up=(0,1,0)`, `right=(1,0,0)`, `forward=(0,0,-1)`, the given yaw and pitch
(unclamped), then computes the view and projection matrices from the fields
set so far. -/
noncomputable def Camera.init (position : Vec3) (yaw pitch : ℝ) : Camera :=
  let s : Camera :=
    { position := position
      up := ⟨0, 1, 0⟩
      right := ⟨1, 0, 0⟩
      forward := ⟨0, 0, -1⟩
      yaw := yaw
      pitch := pitch
      m_view := 1
      m_proj := 1 }
  { s with m_view := Camera.get_view_matrix s, m_proj := Camera.get_projection_matrix }

/-- `Camera.rotate`: `yaw += rel_x * SENSITIVITY`,
`pitch -= rel_y * SENSITIVITY`, then `pitch = max(-89, min(89, pitch))`. -/
noncomputable def Camera.rotate (s : Camera) (relX relY : ℝ) : Camera :=
  { s with
    yaw := s.yaw + relX * SENSITIVITY
    pitch := max (-89) (min 89 (s.pitch - relY * SENSITIVITY)) }

/-- `Camera.update_camera_vectors`: re-derive `forward`, `right`, `up` from
yaw/pitch via spherical coordinates, normalizing each. -/
noncomputable def Camera.update_camera_vectors (s : Camera) : Camera :=
  let yaw := radians s.yaw
  let pitch := radians s.pitch
  let fwd := Vec3.normalize
    ⟨Real.cos yaw * Real.cos pitch, Real.sin pitch, Real.sin yaw * Real.cos pitch⟩
  let rgt := Vec3.normalize (Vec3.cross fwd ⟨0, 1, 0⟩)
  let upv := Vec3.normalize (Vec3.cross rgt fwd)
  { s with forward := fwd, right := rgt, up := upv }

/-- `Camera.move`: `velocity = SPEED * delta_time`; for each held key among
W/S/A/D/Q/E (checked in this order) add or subtract the corresponding stored
basis vector times the velocity. -/
noncomputable def Camera.move (s : Camera) (i : CamInput) : Camera :=
  let v := SPEED * i.deltaTime
  let p := s.position
  let p := if i.keyW then p + v • s.forward else p
  let p := if i.keyS then p - v • s.forward else p
  let p := if i.keyA then p - v • s.right else p
  let p := if i.keyD then p + v • s.right else p
  let p := if i.keyQ then p + v • s.up else p
  let p := if i.keyE then p - v • s.up else p
  { s with position := p }

/-- `Camera.update`: `self.move()`, then `self.rotate()`, then
`self.update_camera_vectors()`, then `self.m_view = self.get_view_matrix()` —
in this order, as written in `camera.py`. -/
noncomputable def Camera.update (s : Camera) (i : CamInput) : Camera :=
  let s1 := Camera.move s i
  let s2 := Camera.rotate s1 i.relX i.relY
  let s3 := Camera.update_camera_vectors s2
  { s3 with m_view := Camera.get_view_matrix s3 }

/-- Modelled from the spec: the per-frame camera step in the order the spec
states it (rotation from the mouse delta first, then basis re-derivation,
then keyboard movement along the just-updated basis vectors, then view-matrix
recomputation).  This definition follows the spec's words and is compared
with `Camera.update`, the order the code actually uses. -/
noncomputable def specUpdate (s : Camera) (i : CamInput) : Camera :=
  let s1 := Camera.rotate s i.relX i.relY
  let s2 := Camera.update_camera_vectors s1
  let s3 := Camera.move s2 i
  { s3 with m_view := Camera.get_view_matrix s3 }

/-- Modelled from the spec claim under test: the initial view matrix a camera
would have if it were computed from the yaw/pitch-derived basis vectors
(derive the basis from yaw and pitch as `update_camera_vectors` does, then
build the look-at matrix).  Compared against the `m_view` that
`Camera.__init__` actually stores. -/
noncomputable def specInitView (pos : Vec3) (yaw pitch : ℝ) : M4 :=
  Camera.get_view_matrix (Camera.update_camera_vectors (Camera.init pos yaw pitch))

/-- A concrete camera state used to instantiate hypotheses of the claims'
theorems: the camera `main.py` constructs (position (0,0,4), yaw -90°,
pitch 0°). -/
noncomputable def sampleCam : Camera :=
  Camera.init ⟨0, 0, 4⟩ (-90) 0

/-- A concrete idle input frame (no keys, no mouse motion). -/
def idleInput : CamInput :=
  ⟨0, 0, false, false, false, false, false, false, 16⟩

/-- A concrete input frame: a large rightward mouse delta (1800 counts turns
the camera by 90°), the W key held, and a frame delta time of 100 ms. -/
def mouseKickInput : CamInput :=
  ⟨1800, 0, true, false, false, false, false, false, 100⟩

/-- Input frame with only the Q (ascend) key held. -/
def qInput (dt : ℝ) : CamInput :=
  ⟨0, 0, false, false, false, false, true, false, dt⟩

/-- Input frame with only the E (descend) key held. -/
def eInput (dt : ℝ) : CamInput :=
  ⟨0, 0, false, false, false, false, false, true, dt⟩

/-! ## Skybox view matrix (`SkyBox.update`, `AdvancedSkyBox.update`) -/

/-- `glm.mat3(M)`: the upper-left 3×3 submatrix. -/
def mat3ofM4 (m : M4) : Matrix (Fin 3) (Fin 3) ℝ :=
  Matrix.of fun i j => m i.castSucc j.castSucc

/-- `glm.mat4(m)` on a 3×3 matrix: re-expand to 4×4, filling the last row and
the last column with `(0, 0, 0, 1)`. -/
def mat4ofM3 (m : Matrix (Fin 3) (Fin 3) ℝ) : M4 :=
  Matrix.of
    ![![m 0 0, m 0 1, m 0 2, 0],
      ![m 1 0, m 1 1, m 1 2, 0],
      ![m 2 0, m 2 1, m 2 2, 0],
      ![0, 0, 0, 1]]

/-- The view matrix written for the skybox each frame:
`glm.mat4(glm.mat3(m_view))` — `SkyBox.update` writes it as `m_view`, and
`AdvancedSkyBox.update` uses it inside `inverse(m_proj * m_view)`. -/
def skyboxView (m_view : M4) : M4 :=
  mat4ofM3 (mat3ofM4 m_view)

/-! ## Scene objects (`model.py`, `scene.py`) -/

/-- The concrete model classes `Scene.load` puts into `scene.objects` (the
skybox object is held separately in `Scene.skybox`). -/
inductive ModelKind
  | cube
  | movingCube
  | cat
deriving DecidableEq

/-- The transform state a scene object owns (`BaseModel`): position,
rotation (radians per axis), scale, and the cached model matrix
`m_model`. -/
structure Model where
  kind : ModelKind
  pos : Vec3
  rot : Vec3
  scal : Vec3
  m_model : M4

/-- `BaseModel.__init__`: store the position and scale, convert the rotation
argument from degrees to radians per axis, and cache the model matrix
computed from them. -/
noncomputable def mkModel (kind : ModelKind) (pos rotDeg scal : Vec3) : Model :=
  let rot : Vec3 := ⟨radians rotDeg.x, radians rotDeg.y, radians rotDeg.z⟩
  { kind := kind, pos := pos, rot := rot, scal := scal
    m_model := get_model_matrix pos rot scal }

/-- The per-frame `update` run by `render()` on each object class:
`BaseModel.update`/`ExtendedBaseModel.update` leave the transform state and
cached matrix untouched (they only push uniforms); `MovingCube.update`
recomputes `m_model` from the current transform before pushing uniforms. -/
noncomputable def Model.update (m : Model) : Model :=
  match m.kind with
  | ModelKind.movingCube => { m with m_model := get_model_matrix m.pos m.rot m.scal }
  | _ => m

/-- `Scene.update`'s assignment `self.moving_cube.rot.xyz = self.app.time`:
set all three rotation components to `t`, touching nothing else. -/
def setRotTo (m : Model) (t : ℝ) : Model :=
  { m with rot := ⟨t, t, t⟩ }

/-- The scene: the ordered object list plus the index at which the moving
cube (the `self.moving_cube` alias) sits — `Scene.load` appends it last. -/
structure Scene where
  objects : List Model
  movingIdx : ℕ

/-- Replace the element at one index of a list by applying `f` to it. -/
def updateAt : List Model → ℕ → (Model → Model) → List Model
  | [], _, _ => []
  | m :: ms, 0, f => f m :: ms
  | m :: ms, Nat.succ n, f => m :: updateAt ms n f

/-- `Scene.update`: mutate the moving cube's rotation to the elapsed time
`t`; no other object is touched. -/
def Scene.update (sc : Scene) (t : ℝ) : Scene :=
  { sc with objects := updateAt sc.objects sc.movingIdx (fun m => setRotTo m t) }

/-- A small concrete scene (one static cube and the moving cube, which sits
last as in `Scene.load`) used to instantiate the claims' theorems. -/
noncomputable def sampleScene : Scene :=
  { objects :=
      [mkModel ModelKind.cube ⟨0, -2, 0⟩ ⟨0, 0, 0⟩ ⟨1, 1, 1⟩,
        mkModel ModelKind.movingCube ⟨0, 6, 8⟩ ⟨0, 0, 0⟩ ⟨3, 3, 3⟩]
    movingIdx := 1 }

/-! ## Render passes (`scene_renderer.py`) as draw-call traces -/

/-- One GPU draw call issued during a frame: a shadow-pass draw
(`render_shadow`), a color-pass draw (`render`), or the skybox draw. -/
inductive DrawEvent
  | shadowDraw
  | colorDraw
  | skyDraw
deriving DecidableEq

/-- `SceneRenderer.render_shadow`: clear and bind the depth framebuffer,
then call `render_shadow()` on every scene object in order — one
shadow-pass draw per object; the skybox is not in `scene.objects`. -/
def renderShadowTrace (os : List Model) : List DrawEvent :=
  os.map fun _ => DrawEvent.shadowDraw

/-- `SceneRenderer.main_render`: bind the screen framebuffer, call
`render()` on every scene object in order, then `scene.skybox.render()`. -/
def mainRenderTrace (os : List Model) : List DrawEvent :=
  (os.map fun _ => DrawEvent.colorDraw) ++ [DrawEvent.skyDraw]

/-- `SceneRenderer.render`: `scene.update()` (no draw), then pass 1
(`render_shadow`), then pass 2 (`main_render`). -/
def renderTrace (os : List Model) : List DrawEvent :=
  renderShadowTrace os ++ mainRenderTrace os

/-! ## Uniform writes of lit models (`ExtendedBaseModel`) as event traces -/

/-- The two shader programs a lit model writes uniforms to: its color
program (`default`) and its shadow program (`shadow_map`). -/
inductive Prog
  | color
  | shadow
deriving DecidableEq, Fintype

/-- The uniform names written by `ExtendedBaseModel`. -/
inductive Uniform
  | m_proj
  | m_view
  | m_model
  | m_view_light
  | camPos
  | u_resolution
  | u_texture_0
  | shadowMap
  | light_position
  | light_Ia
  | light_Id
  | light_Is
deriving DecidableEq, Fintype

/-- One GPU-visible action performed by a lit model's methods: a uniform
write, a sampler-slot assignment (an integer uniform naming a texture
unit), or binding a texture to a unit (`texture.use(location=slot)`). -/
inductive GLEvent
  | uniformWrite (p : Prog) (u : Uniform)
  | samplerAssign (p : Prog) (u : Uniform) (slot : ℕ)
  | textureUse (slot : ℕ)
deriving DecidableEq

/-- `ExtendedBaseModel.on_init`, in source order: the one-time writes made at
construction. -/
def onInitTrace : List GLEvent :=
  [GLEvent.uniformWrite Prog.color Uniform.m_view_light,
    GLEvent.uniformWrite Prog.color Uniform.u_resolution,
    GLEvent.samplerAssign Prog.color Uniform.shadowMap 1,
    GLEvent.textureUse 1,
    GLEvent.uniformWrite Prog.shadow Uniform.m_proj,
    GLEvent.uniformWrite Prog.shadow Uniform.m_view_light,
    GLEvent.uniformWrite Prog.shadow Uniform.m_model,
    GLEvent.samplerAssign Prog.color Uniform.u_texture_0 0,
    GLEvent.textureUse 0,
    GLEvent.uniformWrite Prog.color Uniform.m_proj,
    GLEvent.uniformWrite Prog.color Uniform.m_view,
    GLEvent.uniformWrite Prog.color Uniform.m_model,
    GLEvent.uniformWrite Prog.color Uniform.light_position,
    GLEvent.uniformWrite Prog.color Uniform.light_Ia,
    GLEvent.uniformWrite Prog.color Uniform.light_Id,
    GLEvent.uniformWrite Prog.color Uniform.light_Is]

/-- `ExtendedBaseModel.update`, run once per frame in the color pass: bind
the albedo texture to slot 0, then write `camPos`, `m_view` and `m_model`. -/
def updateTrace : List GLEvent :=
  [GLEvent.textureUse 0,
    GLEvent.uniformWrite Prog.color Uniform.camPos,
    GLEvent.uniformWrite Prog.color Uniform.m_view,
    GLEvent.uniformWrite Prog.color Uniform.m_model]

/-- `ExtendedBaseModel.update_shadow`, run once per frame in the shadow
pass: write `m_model` to the shadow program. -/
def updateShadowTrace : List GLEvent :=
  [GLEvent.uniformWrite Prog.shadow Uniform.m_model]

/-! ## Teardown (`GraphicsEngine.check_events`, `Mesh/VAO/VBO/ShaderProgram.destroy`) -/

/-- The GPU resources named in teardown.  Their creation order at startup is
the order of this type's constructor list: the four vertex buffers
(`VBO.__init__` dict order), the four shader programs
(`ShaderProgram.__init__` dict order), the loaded texture set, and the depth
framebuffer (`SceneRenderer.__init__`). -/
inductive Res
  | cubeVBO
  | catVBO
  | skyboxVBO
  | advSkyboxVBO
  | defaultProg
  | skyboxProg
  | advSkyboxProg
  | shadowMapProg
  | loadedTextures
  | depthFBO
deriving DecidableEq

/-- One teardown step: a GPU resource release, or destroying the GL context
(`pg.quit()`). -/
inductive TearEvent
  | release (r : Res)
  | quitContext
deriving DecidableEq

/-- `VBO.destroy`: release every vertex buffer, in dict insertion order. -/
def vboDestroyTrace : List TearEvent :=
  [TearEvent.release Res.cubeVBO, TearEvent.release Res.catVBO,
    TearEvent.release Res.skyboxVBO, TearEvent.release Res.advSkyboxVBO]

/-- `ShaderProgram.destroy`: release every program, in dict insertion
order. -/
def programDestroyTrace : List TearEvent :=
  [TearEvent.release Res.defaultProg, TearEvent.release Res.skyboxProg,
    TearEvent.release Res.advSkyboxProg, TearEvent.release Res.shadowMapProg]

/-- `VAO.destroy`: `self.vbo.destroy()` first, then
`self.program.destroy()`; the vertex-array objects themselves are never
released. -/
def vaoDestroyTrace : List TearEvent :=
  vboDestroyTrace ++ programDestroyTrace

/-- Modelled from the spec: `texture.py` is not part of this snapshot (only
its callers are); per the spec the TextureSet owns the loaded textures and
releases them at destroy. -/
def textureDestroyTrace : List TearEvent :=
  [TearEvent.release Res.loadedTextures]

/-- `Mesh.destroy`: `self.vao.destroy()`, then `self.texture.destroy()`. -/
def meshDestroyTrace : List TearEvent :=
  vaoDestroyTrace ++ textureDestroyTrace

/-- `SceneRenderer.destroy`: release the depth framebuffer. -/
def sceneRendererDestroyTrace : List TearEvent :=
  [TearEvent.release Res.depthFBO]

/-- `GraphicsEngine.check_events` on quit: `self.mesh.destroy()`, then
`self.scene_renderer.destroy()`, then `pg.quit()` (and `sys.exit()`). -/
def teardownTrace : List TearEvent :=
  meshDestroyTrace ++ sceneRendererDestroyTrace ++ [TearEvent.quitContext]

/-- The creation order of the released resources at startup (buffers before
programs inside `VAO.__init__`, then textures, then the depth
framebuffer). -/
def creationOrder : List Res :=
  [Res.cubeVBO, Res.catVBO, Res.skyboxVBO, Res.advSkyboxVBO,
    Res.defaultProg, Res.skyboxProg, Res.advSkyboxProg, Res.shadowMapProg,
    Res.loadedTextures, Res.depthFBO]

/-! # Theorems -/

/-! ## Vector component lemmas -/

/-- Two vectors are equal when all three components agree. -/
@[ext] theorem Vec3.ext {a b : Vec3} (hx : a.x = b.x) (hy : a.y = b.y)
    (hz : a.z = b.z) : a = b := by
  cases a
  cases b
  simp_all

/-- Component-wise simp lemma for vector addition. -/
@[simp] theorem Vec3.add_x (a b : Vec3) : (a + b).x = a.x + b.x := rfl

/-- Component-wise simp lemma for vector addition. -/
@[simp] theorem Vec3.add_y (a b : Vec3) : (a + b).y = a.y + b.y := rfl

/-- Component-wise simp lemma for vector addition. -/
@[simp] theorem Vec3.add_z (a b : Vec3) : (a + b).z = a.z + b.z := rfl

/-- Component-wise simp lemma for vector subtraction. -/
@[simp] theorem Vec3.sub_x (a b : Vec3) : (a - b).x = a.x - b.x := rfl

/-- Component-wise simp lemma for vector subtraction. -/
@[simp] theorem Vec3.sub_y (a b : Vec3) : (a - b).y = a.y - b.y := rfl

/-- Component-wise simp lemma for vector subtraction. -/
@[simp] theorem Vec3.sub_z (a b : Vec3) : (a - b).z = a.z - b.z := rfl

/-- Component-wise simp lemma for scalar multiplication. -/
@[simp] theorem Vec3.smul_x (k : ℝ) (v : Vec3) : (k • v).x = k * v.x := rfl

/-- Component-wise simp lemma for scalar multiplication. -/
@[simp] theorem Vec3.smul_y (k : ℝ) (v : Vec3) : (k • v).y = k * v.y := rfl

/-- Component-wise simp lemma for scalar multiplication. -/
@[simp] theorem Vec3.smul_z (k : ℝ) (v : Vec3) : (k • v).z = k * v.z := rfl

/-! ## Claim C7: pitch clamping -/

/-- Single update step keeps pitch within the clamp interval. -/
theorem camUpdate_pitch_mem (s : Camera) (i : CamInput) :
    -89 ≤ (Camera.update s i).pitch ∧ (Camera.update s i).pitch ≤ 89 := by
  constructor
  · exact le_max_left _ _
  · exact max_le (by norm_num) (min_le_left _ _)

/-- Folding any nonempty input sequence through `Camera.update` lands the
pitch in the clamp interval. -/
theorem camUpdate_foldl_pitch_mem (l : List CamInput) (s : Camera) (h : l ≠ []) :
    -89 ≤ (l.foldl Camera.update s).pitch ∧ (l.foldl Camera.update s).pitch ≤ 89 := by
  induction l generalizing s with
  | nil => exact absurd rfl h
  | cons x xs ih =>
    cases hxs : xs with
    | nil => simpa [hxs] using camUpdate_pitch_mem s x
    | cons y ys =>
      rw [List.foldl_cons]
      exact hxs ▸ ih (Camera.update s x) (by simp [hxs])

/-- C7: after every `Camera.update` (for any sequence of mouse deltas) the
pitch lies in `[-89, 89]`, and the clamp is idempotent: a `rotate` with zero
mouse delta leaves an in-range pitch unchanged. -/
theorem c7_pitch_clamped (s : Camera) (l : List CamInput) (h : l ≠ []) :
    (-89 ≤ (l.foldl Camera.update s).pitch ∧ (l.foldl Camera.update s).pitch ≤ 89) ∧
      (∀ s' : Camera, -89 ≤ s'.pitch → s'.pitch ≤ 89 →
        (Camera.rotate s' 0 0).pitch = s'.pitch) := by
  refine ⟨camUpdate_foldl_pitch_mem l s h, fun s' h1 h2 => ?_⟩
  simp only [Camera.rotate]
  rw [zero_mul, sub_zero, min_eq_right h2, max_eq_right]
  exact le_trans (by norm_num) h1

/-- Witness for C7 at a concrete camera state and a one-frame input list. -/
theorem c7_pitch_clamped_witness :
    (-89 ≤ ([idleInput].foldl Camera.update sampleCam).pitch ∧
        ([idleInput].foldl Camera.update sampleCam).pitch ≤ 89) ∧
      (∀ s' : Camera, -89 ≤ s'.pitch → s'.pitch ≤ 89 →
        (Camera.rotate s' 0 0).pitch = s'.pitch) :=
  c7_pitch_clamped sampleCam [idleInput] (by simp)

/-! ## Claim C3: model matrix composition -/

/-- Normalizing a unit coordinate axis is the identity (z-axis). -/
theorem normalize_unitZ : Vec3.normalize ⟨0, 0, 1⟩ = ⟨0, 0, 1⟩ := by
  ext <;> simp [Vec3.normalize, Vec3.dot]

/-- Normalizing a unit coordinate axis is the identity (y-axis). -/
theorem normalize_unitY : Vec3.normalize ⟨0, 1, 0⟩ = ⟨0, 1, 0⟩ := by
  ext <;> simp [Vec3.normalize, Vec3.dot]

/-- Normalizing a unit coordinate axis is the identity (x-axis). -/
theorem normalize_unitX : Vec3.normalize ⟨1, 0, 0⟩ = ⟨1, 0, 0⟩ := by
  ext <;> simp [Vec3.normalize, Vec3.dot]

/-- Rodrigues' matrix about the z-axis is the reference z-rotation. -/
theorem rotationMatrix_unitZ (a : ℝ) : rotationMatrix a ⟨0, 0, 1⟩ = rotZ a := by
  unfold rotationMatrix rotZ
  rw [normalize_unitZ]
  ext i j
  fin_cases i <;> fin_cases j <;>
    simp [Matrix.cons_val_zero, Matrix.cons_val_one, Matrix.head_cons,
      Matrix.cons_val_two, Matrix.cons_val_three, Matrix.vecHead, Matrix.vecTail]

/-- Rodrigues' matrix about the y-axis is the reference y-rotation. -/
theorem rotationMatrix_unitY (a : ℝ) : rotationMatrix a ⟨0, 1, 0⟩ = rotY a := by
  unfold rotationMatrix rotY
  rw [normalize_unitY]
  ext i j
  fin_cases i <;> fin_cases j <;>
    simp [Matrix.cons_val_zero, Matrix.cons_val_one, Matrix.head_cons,
      Matrix.cons_val_two, Matrix.cons_val_three, Matrix.vecHead, Matrix.vecTail]

/-- Rodrigues' matrix about the x-axis is the reference x-rotation. -/
theorem rotationMatrix_unitX (a : ℝ) : rotationMatrix a ⟨1, 0, 0⟩ = rotX a := by
  unfold rotationMatrix rotX
  rw [normalize_unitX]
  ext i j
  fin_cases i <;> fin_cases j <;>
    simp [Matrix.cons_val_zero, Matrix.cons_val_one, Matrix.head_cons,
      Matrix.cons_val_two, Matrix.cons_val_three, Matrix.vecHead, Matrix.vecTail]

/-- The model matrix is the product of the reference factors in the source's
order: translation, z-rotation, y-rotation, x-rotation, scale. -/
theorem model_matrix_eq_product (pos rot scal : Vec3) :
    get_model_matrix pos rot scal =
      translateM pos * rotZ rot.z * rotY rot.y * rotX rot.x * scaleM scal := by
  simp only [get_model_matrix, glmTranslate, glmRotate, glmScale,
    rotationMatrix_unitZ, rotationMatrix_unitY, rotationMatrix_unitX, one_mul]

/-- Translating by the zero vector is the identity matrix. -/
theorem translateM_zero : translateM ⟨0, 0, 0⟩ = 1 := by
  unfold translateM
  ext i j
  fin_cases i <;> fin_cases j <;> rfl

/-- Scaling by the unit vector is the identity matrix. -/
theorem scaleM_one : scaleM ⟨1, 1, 1⟩ = 1 := by
  unfold scaleM
  ext i j
  fin_cases i <;> fin_cases j <;> rfl

/-- A zero-angle y-rotation is the identity matrix. -/
theorem rotY_zero : rotY 0 = 1 := by
  unfold rotY
  rw [Real.cos_zero, Real.sin_zero, neg_zero]
  ext i j
  fin_cases i <;> fin_cases j <;> rfl

/-- C3 (amended): for every position, rotation vector (radians per axis) and
scale, `BaseModel.get_model_matrix` equals
`translate(p) · rotateZ(r.z) · rotateY(r.y) · rotateX(r.x) · scale(s)`, and
there is a non-trivial rotation — both the x- and z-angles are `π/2`, with
non-identity factors — for which swapping the rotateX and rotateZ factors
produces a different matrix (though not for every non-trivial rotation; see
the counterexample at `(π, 0, π)`). -/
theorem c3_model_matrix_order :
    (∀ pos rot scal : Vec3,
        get_model_matrix pos rot scal =
          translateM pos * rotZ rot.z * rotY rot.y * rotX rot.x * scaleM scal) ∧
      ∃ rot : Vec3, rot.x ≠ 0 ∧ rot.z ≠ 0 ∧
        translateM ⟨0, 0, 0⟩ * rotX rot.x * rotY rot.y * rotZ rot.z * scaleM ⟨1, 1, 1⟩ ≠
          get_model_matrix ⟨0, 0, 0⟩ rot ⟨1, 1, 1⟩ := by
  have hpi : (0 : ℝ) < Real.pi / 2 := by
    have := Real.pi_pos
    linarith
  refine ⟨model_matrix_eq_product, ⟨Real.pi / 2, 0, Real.pi / 2⟩, ne_of_gt hpi,
    ne_of_gt hpi, fun h => ?_⟩
  rw [model_matrix_eq_product, translateM_zero, scaleM_one, rotY_zero] at h
  simp only [one_mul, mul_one] at h
  have h01 : (rotX (Real.pi / 2) * rotZ (Real.pi / 2)) 0 1 =
      (rotZ (Real.pi / 2) * rotX (Real.pi / 2)) 0 1 :=
    congrFun (congrFun h 0) 1
  simp [rotX, rotZ, Matrix.mul_apply, Fin.sum_univ_four, Real.cos_pi_div_two,
    Real.sin_pi_div_two, Matrix.cons_val_zero, Matrix.cons_val_one, Matrix.head_cons,
    Matrix.cons_val_two, Matrix.cons_val_three, Matrix.vecHead, Matrix.vecTail] at h01

/-- C3 counterexample: the rotation `(π, 0, π)` is non-trivial (its rotateX
and rotateZ factors are not the identity), yet swapping those factors leaves
the model matrix unchanged — the swapped product equals the matrix
`BaseModel.get_model_matrix` computes. -/
theorem c3_swap_same_at_pi :
    (rotX Real.pi ≠ 1 ∧ rotZ Real.pi ≠ 1) ∧
      translateM ⟨0, 0, 0⟩ * rotX Real.pi * rotY 0 * rotZ Real.pi * scaleM ⟨1, 1, 1⟩ =
        get_model_matrix ⟨0, 0, 0⟩ ⟨Real.pi, 0, Real.pi⟩ ⟨1, 1, 1⟩ := by
  refine ⟨⟨fun h => ?_, fun h => ?_⟩, ?_⟩
  · have h11 : rotX Real.pi 1 1 = (1 : M4) 1 1 := by rw [h]
    simp [rotX, Real.cos_pi, Matrix.one_apply, Matrix.cons_val_zero, Matrix.cons_val_one,
      Matrix.head_cons, Matrix.cons_val_two, Matrix.cons_val_three, Matrix.vecHead,
      Matrix.vecTail] at h11
    norm_num at h11
  · have h11 : rotZ Real.pi 1 1 = (1 : M4) 1 1 := by rw [h]
    simp [rotZ, Real.cos_pi, Matrix.one_apply, Matrix.cons_val_zero, Matrix.cons_val_one,
      Matrix.head_cons, Matrix.cons_val_two, Matrix.cons_val_three, Matrix.vecHead,
      Matrix.vecTail] at h11
    norm_num at h11
  · rw [model_matrix_eq_product, translateM_zero, scaleM_one, rotY_zero]
    rw [one_mul, mul_one, mul_one, one_mul, mul_one]
    ext i j
    fin_cases i <;> fin_cases j <;>
      simp [rotX, rotZ, Matrix.mul_apply, Fin.sum_univ_four, Real.cos_pi, Real.sin_pi,
        Matrix.cons_val_zero, Matrix.cons_val_one, Matrix.head_cons, Matrix.cons_val_two,
        Matrix.cons_val_three, Matrix.vecHead, Matrix.vecTail]

/-! ## Claim C8: skybox view matrix -/

/-- Cancellation for the camera's `center = position + forward` argument. -/
theorem add_sub_cancel_vec (a b : Vec3) : (a + b) - a = b := by
  ext <;> simp

/-- Index arithmetic helper: `castSucc` fixes the numeral 2. -/
theorem finCastSucc_two : Fin.castSucc (2 : Fin 3) = (2 : Fin 4) := rfl

/-- The translation column of the stripped matrix is `(0, 0, 0, 1)`. -/
theorem skyboxView_last_col (m : M4) (i : Fin 4) :
    skyboxView m i 3 = if i = 3 then 1 else 0 := by
  fin_cases i <;> simp [skyboxView, mat4ofM3, mat3ofM4]

/-- Stripping preserves the upper-left 3×3 submatrix exactly. -/
theorem mat3_skyboxView (m : M4) : mat3ofM4 (skyboxView m) = mat3ofM4 m := by
  ext i j
  fin_cases i <;> fin_cases j <;>
    simp [skyboxView, mat4ofM3, mat3ofM4, Fin.castSucc_zero, Fin.castSucc_one,
      finCastSucc_two, Matrix.cons_val_zero, Matrix.cons_val_one, Matrix.head_cons,
      Matrix.cons_val_two, Matrix.cons_val_three, Matrix.vecHead, Matrix.vecTail]

/-- The stripped view matrix does not depend on the camera position. -/
theorem skyboxView_lookAt_eye (eye eye' fwd up : Vec3) :
    skyboxView (lookAt eye (eye + fwd) up) =
      skyboxView (lookAt eye' (eye' + fwd) up) := by
  simp only [skyboxView, mat4ofM3, mat3ofM4, lookAt, add_sub_cancel_vec]
  ext i j
  fin_cases i <;> fin_cases j <;>
    simp [Fin.castSucc_zero, Fin.castSucc_one, finCastSucc_two,
      Matrix.cons_val_zero, Matrix.cons_val_one, Matrix.head_cons,
      Matrix.cons_val_two, Matrix.cons_val_three, Matrix.vecHead, Matrix.vecTail]

/-- C8: for every camera position and orientation, the skybox view matrix
(the camera view matrix with the 3×3 rotation submatrix re-expanded to 4×4)
has translation column `(0, 0, 0, 1)`, its upper-left 3×3 submatrix equals
the camera view matrix's upper-left 3×3 submatrix exactly, and it is
invariant under any change of camera position alone. -/
theorem c8_skybox_view_matrix (eye eye' fwd up : Vec3) :
    (∀ i : Fin 4, skyboxView (lookAt eye (eye + fwd) up) i 3 = if i = 3 then 1 else 0) ∧
      mat3ofM4 (skyboxView (lookAt eye (eye + fwd) up)) =
        mat3ofM4 (lookAt eye (eye + fwd) up) ∧
      skyboxView (lookAt eye (eye + fwd) up) = skyboxView (lookAt eye' (eye' + fwd) up) :=
  ⟨fun i => skyboxView_last_col _ i, mat3_skyboxView _, skyboxView_lookAt_eye eye eye' fwd up⟩

/-! ## Claim C4: order of steps inside `Camera.update` -/

/-- Degree-to-radian evaluation at 0. -/
theorem radians_zero : radians 0 = 0 := by
  unfold radians
  ring

/-- Degree-to-radian evaluation at -90. -/
theorem radians_neg90 : radians (-90) = -(Real.pi / 2) := by
  unfold radians
  ring

/-- Degree-to-radian evaluation at 60. -/
theorem radians_60 : radians 60 = Real.pi / 3 := by
  unfold radians
  ring

/-- C4 (amended): `Camera.update` runs movement first — the movement step
sees the basis vectors stored from the previous frame and is unaffected by
this frame's mouse delta — and only then applies rotation, basis
re-derivation, and view-matrix recomputation. -/
theorem c4_update_applies_move_first (s : Camera) (i : CamInput) :
    (Camera.update s i).position = (Camera.move s i).position ∧
      ((Camera.move s i).forward = s.forward ∧ (Camera.move s i).right = s.right ∧
        (Camera.move s i).up = s.up) ∧
      (Camera.update s i).yaw = s.yaw + i.relX * SENSITIVITY ∧
      (Camera.update s i).pitch = max (-89) (min 89 (s.pitch - i.relY * SENSITIVITY)) ∧
      (∀ a b : ℝ,
        (Camera.update s { i with relX := a, relY := b }).position =
          (Camera.update s i).position) := by
  refine ⟨rfl, ⟨rfl, rfl, rfl⟩, rfl, rfl, fun a b => rfl⟩

/-- C4 counterexample: at a concrete state and input, running the steps in
the spec's order (rotate, re-derive basis, move, view) produces a different
camera state than `Camera.update` does: the code moves along the previous
frame's forward vector (to z = 3), the spec's order would move along the
just-rotated forward vector (keeping z = 4). -/
theorem c4_spec_order_differs :
    specUpdate sampleCam mouseKickInput ≠ Camera.update sampleCam mouseKickInput := by
  intro h
  have hz : (specUpdate sampleCam mouseKickInput).position.z =
      (Camera.update sampleCam mouseKickInput).position.z := by rw [h]
  have hcode : (Camera.update sampleCam mouseKickInput).position.z = 3 := by
    simp [Camera.update, Camera.move, Camera.rotate, Camera.update_camera_vectors,
      sampleCam, Camera.init, mouseKickInput, SPEED]
    norm_num
  have hyaw : (-90 : ℝ) + 1800 * SENSITIVITY = 0 := by
    norm_num [SENSITIVITY]
  have hspec : (specUpdate sampleCam mouseKickInput).position.z = 4 := by
    simp only [specUpdate, Camera.move, Camera.rotate, Camera.update_camera_vectors,
      sampleCam, Camera.init, mouseKickInput]
    simp only [hyaw, radians_zero, Real.sin_zero, Real.cos_zero]
    simp [Vec3.normalize, Vec3.dot, Vec3.cross]
  rw [hcode, hspec] at hz
  norm_num at hz

/-! ## Claim C5: vertical movement and the up vector -/

/-- Square root evaluation helper. -/
theorem sqrt3_sq : Real.sqrt 3 * Real.sqrt 3 = 3 :=
  Real.mul_self_sqrt (by norm_num)

/-- Square root evaluation helper. -/
theorem sqrt_quarter : Real.sqrt (1 / 4 : ℝ) = 1 / 2 := by
  rw [show (1 / 4 : ℝ) = (1 / 2) ^ 2 by norm_num]
  exact Real.sqrt_sq (by norm_num)

/-- Basis evaluation at yaw -90°, pitch 0°: the derived up vector is the
world up. -/
theorem upVec_at_neg90_0 (s : Camera) (hy : s.yaw = -90) (hp : s.pitch = 0) :
    (Camera.update_camera_vectors s).up = ⟨0, 1, 0⟩ := by
  simp only [Camera.update_camera_vectors, hy, hp, radians_neg90, radians_zero]
  simp [Real.cos_neg, Real.sin_neg, Real.cos_pi_div_two, Real.sin_pi_div_two,
    Vec3.normalize, Vec3.cross, Vec3.dot]
  ext <;> norm_num

/-- Basis evaluation at yaw -90°, pitch 60°: the derived up vector is tilted
by the pitch. -/
theorem upVec_at_neg90_60 (s : Camera) (hy : s.yaw = -90) (hp : s.pitch = 60) :
    (Camera.update_camera_vectors s).up = ⟨0, 1 / 2, Real.sqrt 3 / 2⟩ := by
  simp only [Camera.update_camera_vectors, hy, hp, radians_neg90, radians_60]
  simp [Real.cos_neg, Real.sin_neg, Real.cos_pi_div_two, Real.sin_pi_div_two,
    Real.cos_pi_div_three, Real.sin_pi_div_three, Vec3.normalize, Vec3.cross, Vec3.dot]
  ext <;> norm_num [sqrt3_sq, sqrt_quarter, div_mul_div_comm]

/-- C5 (amended): for the held up/down keys, `Camera.move` translates the
position along the camera's stored up basis vector (positively for Q,
negatively for E); that vector is the pitch-dependent camera-local up, so
vertical movement is not independent of pitch: there are two states with
equal yaw whose derived up vectors differ. -/
theorem c5_vertical_move_along_up (s : Camera) (dt : ℝ) :
    (Camera.move s (qInput dt)).position = s.position + (SPEED * dt) • s.up ∧
      (Camera.move s (eInput dt)).position = s.position - (SPEED * dt) • s.up ∧
      ∃ s1 s2 : Camera, s1.yaw = s2.yaw ∧
        (Camera.update_camera_vectors s1).up ≠ (Camera.update_camera_vectors s2).up := by
  refine ⟨by simp [Camera.move, qInput], by simp [Camera.move, eInput],
    Camera.init ⟨0, 0, 0⟩ (-90) 0, Camera.init ⟨0, 0, 0⟩ (-90) 60, rfl, fun h => ?_⟩
  rw [upVec_at_neg90_0 _ rfl rfl, upVec_at_neg90_60 _ rfl rfl] at h
  have hy : (1 : ℝ) = 1 / 2 := congrArg Vec3.y h
  norm_num at hy

/-- C5 counterexample: starting from the origin with yaw -90°, a held Q key
moves the camera straight up when the pitch is 0° but along a tilted
direction when the pitch is 60° — the direction of vertical-key movement is
not the same for any two pitch values. -/
theorem c5_vertical_move_differs_with_pitch :
    (Camera.move (Camera.update_camera_vectors (Camera.init ⟨0, 0, 0⟩ (-90) 0))
        (qInput 100)).position ≠
      (Camera.move (Camera.update_camera_vectors (Camera.init ⟨0, 0, 0⟩ (-90) 60))
        (qInput 100)).position := by
  intro h
  have hy : (Camera.move (Camera.update_camera_vectors (Camera.init ⟨0, 0, 0⟩ (-90) 0))
      (qInput 100)).position.y =
      (Camera.move (Camera.update_camera_vectors (Camera.init ⟨0, 0, 0⟩ (-90) 60))
        (qInput 100)).position.y := by
    rw [h]
  have h1 : (Camera.move (Camera.update_camera_vectors (Camera.init ⟨0, 0, 0⟩ (-90) 0))
      (qInput 100)).position.y = 1 := by
    simp only [Camera.move, qInput]
    rw [upVec_at_neg90_0 _ rfl rfl]
    simp [Camera.update_camera_vectors, Camera.init, SPEED]
    norm_num
  have h2 : (Camera.move (Camera.update_camera_vectors (Camera.init ⟨0, 0, 0⟩ (-90) 60))
      (qInput 100)).position.y = 1 / 2 := by
    simp only [Camera.move, qInput]
    rw [upVec_at_neg90_60 _ rfl rfl]
    simp [Camera.update_camera_vectors, Camera.init, SPEED]
    norm_num
  rw [h1, h2] at hy
  norm_num at hy

/-! ## Claim C10: construction does not clamp pitch; initial view matrix -/

/-- Basis evaluation at yaw -90°, pitch 60°: the derived forward vector. -/
theorem fwdVec_at_neg90_60 (s : Camera) (hy : s.yaw = -90) (hp : s.pitch = 60) :
    (Camera.update_camera_vectors s).forward = ⟨0, Real.sqrt 3 / 2, -(1 / 2)⟩ := by
  simp only [Camera.update_camera_vectors, hy, hp, radians_neg90, radians_60]
  simp [Real.cos_neg, Real.sin_neg, Real.cos_pi_div_two, Real.sin_pi_div_two,
    Real.cos_pi_div_three, Real.sin_pi_div_three, Vec3.normalize, Vec3.dot]
  ext <;> norm_num [sqrt3_sq, div_mul_div_comm]

/-- Projection helper: re-deriving the basis vectors leaves the position. -/
theorem camUpdateVectors_position (s : Camera) :
    (Camera.update_camera_vectors s).position = s.position := rfl

/-- Projection helper: the constructed camera's position field. -/
theorem camInit_position (p : Vec3) (yaw pitch : ℝ) :
    (Camera.init p yaw pitch).position = p := rfl

/-- C10 (amended): `Camera.__init__` stores the supplied pitch exactly, with
no clamping, for any value including out-of-range ones; but its initial view
matrix is computed from the hard-coded initial basis `forward = (0,0,-1)`,
`up = (0,1,0)` — independent of yaw and pitch — and the `[-89, 89]` pitch
bound is established only by the first `rotate` call. -/
theorem c10_init_pitch_unclamped (pos : Vec3) (yaw pitch : ℝ) :
    (Camera.init pos yaw pitch).pitch = pitch ∧
      (Camera.init pos yaw pitch).m_view = lookAt pos (pos + ⟨0, 0, -1⟩) ⟨0, 1, 0⟩ ∧
      ∀ relX relY : ℝ,
        -89 ≤ (Camera.rotate (Camera.init pos yaw pitch) relX relY).pitch ∧
          (Camera.rotate (Camera.init pos yaw pitch) relX relY).pitch ≤ 89 :=
  ⟨rfl, rfl, fun _ _ => ⟨le_max_left _ _, max_le (by norm_num) (min_le_left _ _)⟩⟩

/-- C10 counterexample: constructing the camera at (0,0,4), yaw -90°, with
pitch 60° gives the same initial view matrix as with pitch 0° — the stored
view matrix does not depend on the supplied pitch — and it differs from the
view matrix computed from the pitch-derived basis vectors. -/
theorem c10_init_view_ignores_pitch :
    (Camera.init ⟨0, 0, 4⟩ (-90) 60).m_view = (Camera.init ⟨0, 0, 4⟩ (-90) 0).m_view ∧
      (Camera.init ⟨0, 0, 4⟩ (-90) 60).m_view ≠ specInitView ⟨0, 0, 4⟩ (-90) 60 := by
  refine ⟨rfl, fun h => ?_⟩
  have h11 : (Camera.init ⟨0, 0, 4⟩ (-90) 60).m_view 1 1 =
      specInitView ⟨0, 0, 4⟩ (-90) 60 1 1 := by rw [h]
  have hcode : (Camera.init ⟨0, 0, 4⟩ (-90) 60).m_view 1 1 = 1 := by
    simp [Camera.init, Camera.get_view_matrix, lookAt, add_sub_cancel_vec, Vec3.normalize,
      Vec3.dot, Vec3.cross, Matrix.cons_val_zero, Matrix.cons_val_one, Matrix.head_cons]
  have hspec : specInitView ⟨0, 0, 4⟩ (-90) 60 1 1 = 1 / 2 := by
    have hfwd := fwdVec_at_neg90_60 (Camera.init ⟨0, 0, 4⟩ (-90) 60) rfl rfl
    have hup := upVec_at_neg90_60 (Camera.init ⟨0, 0, 4⟩ (-90) 60) rfl rfl
    simp only [specInitView, Camera.get_view_matrix, camUpdateVectors_position,
      camInit_position, hfwd, hup]
    simp [lookAt, add_sub_cancel_vec, Vec3.normalize, Vec3.dot, Vec3.cross,
      Matrix.cons_val_zero, Matrix.cons_val_one, Matrix.head_cons]
    norm_num [sqrt3_sq, sqrt_quarter, div_mul_div_comm]
  rw [hcode, hspec] at h11
  norm_num at h11

/-! ## Claim C9: `Scene.update` mutates only the moving cube -/

/-- `updateAt` leaves every other index unchanged. -/
theorem updateAt_getElem?_ne (l : List Model) (n : ℕ) (f : Model → Model) :
    ∀ i : ℕ, i ≠ n → (updateAt l n f)[i]? = l[i]? := by
  induction l generalizing n with
  | nil => intro i _; rfl
  | cons m ms ih =>
    intro i hi
    cases n with
    | zero =>
      cases i with
      | zero => exact absurd rfl hi
      | succ j => rfl
    | succ k =>
      cases i with
      | zero => simp [updateAt]
      | succ j =>
        simp only [updateAt, List.getElem?_cons_succ]
        exact ih k j (by omega)

/-- `updateAt` applies `f` exactly at the targeted index. -/
theorem updateAt_getElem?_eq (l : List Model) (n : ℕ) (f : Model → Model) :
    (updateAt l n f)[n]? = (l[n]?).map f := by
  induction l generalizing n with
  | nil => simp [updateAt]
  | cons m ms ih =>
    cases n with
    | zero => simp [updateAt]
    | succ k =>
      simp only [updateAt, List.getElem?_cons_succ]
      exact ih k

/-- C9: `Scene.update` rewrites only the moving-cube entry — setting its
rotation to `(t, t, t)` and touching no other field — while every other
object (and its cached model matrix) is unchanged; the per-frame `update`
run by rendering is the identity on every non-moving-cube model, and on the
moving cube it recomputes only the cached model matrix. -/
theorem c9_scene_update_touches_only_moving_cube (sc : Scene) (t : ℝ) :
    (∀ i : ℕ, i ≠ sc.movingIdx → (Scene.update sc t).objects[i]? = sc.objects[i]?) ∧
      (Scene.update sc t).objects[sc.movingIdx]? =
        (sc.objects[sc.movingIdx]?).map (fun m => setRotTo m t) ∧
      (∀ m : Model, (setRotTo m t).rot = ⟨t, t, t⟩ ∧ (setRotTo m t).pos = m.pos ∧
        (setRotTo m t).scal = m.scal ∧ (setRotTo m t).m_model = m.m_model ∧
        (setRotTo m t).kind = m.kind) ∧
      (∀ m : Model, m.kind ≠ ModelKind.movingCube → Model.update m = m) ∧
      (∀ m : Model, m.kind = ModelKind.movingCube →
        Model.update m = { m with m_model := get_model_matrix m.pos m.rot m.scal }) := by
  refine ⟨fun i hi => updateAt_getElem?_ne _ _ _ i hi, updateAt_getElem?_eq _ _ _,
    fun m => ⟨rfl, rfl, rfl, rfl, rfl⟩, fun m hm => ?_, fun m hm => ?_⟩
  · cases hk : m.kind
    · simp [Model.update, hk]
    · exact absurd hk hm
    · simp [Model.update, hk]
  · simp [Model.update, hm]

/-- Witness for C9 on the concrete two-object scene: updating at time 5
leaves the static cube (index 0) untouched and rewrites the moving cube
(index 1) through `setRotTo`. -/
theorem c9_witness :
    (Scene.update sampleScene 5).objects[0]? = sampleScene.objects[0]? ∧
      (Scene.update sampleScene 5).objects[1]? =
        (sampleScene.objects[1]?).map (fun m => setRotTo m 5) :=
  ⟨(c9_scene_update_touches_only_moving_cube sampleScene 5).1 0 (by decide),
    (c9_scene_update_touches_only_moving_cube sampleScene 5).2.1⟩

/-! ## Claim C1: two-pass order of draw calls -/

/-- The frame's draw trace is: one shadow draw per object, then one color
draw per object, then the single skybox draw. -/
theorem renderTrace_eq (os : List Model) :
    renderTrace os = List.replicate os.length DrawEvent.shadowDraw ++
      (List.replicate os.length DrawEvent.colorDraw ++ [DrawEvent.skyDraw]) := by
  simp [renderTrace, renderShadowTrace, mainRenderTrace, List.map_const']

/-- Index characterization of the frame's draw trace. -/
theorem renderTrace_getElem? (os : List Model) (i : ℕ) :
    (renderTrace os)[i]? =
      if i < os.length then some DrawEvent.shadowDraw
      else if i < 2 * os.length then some DrawEvent.colorDraw
      else if i = 2 * os.length then some DrawEvent.skyDraw
      else none := by
  rw [renderTrace_eq]
  rcases Nat.lt_or_ge i os.length with h1 | h1
  · rw [List.getElem?_append_left (by simpa using h1)]
    simp [List.getElem?_replicate, h1]
  · rw [List.getElem?_append_right (by simpa using h1)]
    simp only [List.length_replicate]
    rcases Nat.lt_or_ge (i - os.length) os.length with h2 | h2
    · rw [List.getElem?_append_left (by simpa using h2)]
      rw [List.getElem?_replicate, if_pos h2, if_neg (by omega), if_pos (by omega)]
    · rw [List.getElem?_append_right (by simpa using h2)]
      simp only [List.length_replicate]
      rcases Nat.eq_or_lt_of_le h2 with h3 | h3
      · rw [show i - os.length - os.length = 0 by omega]
        rw [if_neg (by omega), if_neg (by omega), if_pos (by omega)]
        rfl
      · rw [show i - os.length - os.length = (i - 2 * os.length - 1) + 1 by omega]
        rw [if_neg (by omega), if_neg (by omega), if_neg (by omega)]
        rfl

/-- C1: in every frame, for a scene with N objects the draw trace has length
2N + 1; position i holds a shadow draw exactly when `i < N`, a color draw
exactly when `N ≤ i < 2N`, and the skybox draw exactly when `i = 2N` — so
all N shadow draws (one `render_shadow` per scene object, skybox excluded)
come before any color draw, and the skybox is drawn exactly once, as the
last draw of the color pass. -/
theorem c1_two_pass_order (os : List Model) :
    (renderTrace os).length = 2 * os.length + 1 ∧
      (∀ i : ℕ,
        ((renderTrace os)[i]? = some DrawEvent.shadowDraw ↔ i < os.length) ∧
          ((renderTrace os)[i]? = some DrawEvent.colorDraw ↔
            os.length ≤ i ∧ i < 2 * os.length) ∧
          ((renderTrace os)[i]? = some DrawEvent.skyDraw ↔ i = 2 * os.length)) ∧
      (renderTrace os).count DrawEvent.shadowDraw = os.length ∧
      (renderTrace os).count DrawEvent.skyDraw = 1 ∧
      (mainRenderTrace os).getLast? = some DrawEvent.skyDraw ∧
      (renderTrace os).getLast? = some DrawEvent.skyDraw := by
  refine ⟨?_, fun i => ?_, ?_, ?_, ?_, ?_⟩
  · rw [renderTrace_eq]
    simp
    omega
  · rw [renderTrace_getElem?]
    refine ⟨?_, ?_, ?_⟩ <;> split_ifs with h1 h2 h3 <;> simp <;> omega
  · rw [renderTrace_eq]
    simp [List.count_append, List.count_replicate]
  · rw [renderTrace_eq]
    simp [List.count_append, List.count_replicate]
  · simp [mainRenderTrace]
  · rw [renderTrace_eq]
    simp

/-! ## Claim C2: teardown release order -/

/-- C2 (amended): teardown releases the GPU resources in creation order —
the four vertex buffers first, then the four shader programs, then the
textures, then the depth framebuffer — not in reverse; the depth framebuffer
is released before GL context destruction, and the vertex-array objects are
never explicitly released. -/
theorem c2_teardown_release_order :
    teardownTrace = creationOrder.map TearEvent.release ++ [TearEvent.quitContext] ∧
      teardownTrace.indexOf (TearEvent.release Res.depthFBO) <
        teardownTrace.indexOf TearEvent.quitContext := by
  exact ⟨rfl, by decide⟩

/-- C2 counterexample: the cube vertex buffer is created before the default
shader program (which renders from it through the `cube` vertex array), yet
teardown releases the buffer before the program — the release order is not
the reverse of the creation order. -/
theorem c2_buffer_released_before_program :
    creationOrder.indexOf Res.cubeVBO < creationOrder.indexOf Res.defaultProg ∧
      teardownTrace.indexOf (TearEvent.release Res.cubeVBO) <
        teardownTrace.indexOf (TearEvent.release Res.defaultProg) := by
  decide

/-! ## Claim C6: one-time versus per-frame uniform writes -/

/-- C6 (amended): the projection matrix, light-space view matrix, light
intensity uniforms and the two sampler-slot assignments (slot 0 = albedo,
slot 1 = shadow depth) are each written exactly once, at construction, and
never per frame; the per-frame uniform writes are exactly the camera
position, view matrix and model matrix on the color program, and the model
matrix on the shadow program; no sampler-slot assignment happens per
frame. -/
theorem c6_uniform_write_discipline :
    (onInitTrace.count (GLEvent.uniformWrite Prog.color Uniform.m_proj) = 1 ∧
      onInitTrace.count (GLEvent.uniformWrite Prog.shadow Uniform.m_proj) = 1 ∧
      onInitTrace.count (GLEvent.uniformWrite Prog.color Uniform.m_view_light) = 1 ∧
      onInitTrace.count (GLEvent.uniformWrite Prog.shadow Uniform.m_view_light) = 1 ∧
      onInitTrace.count (GLEvent.samplerAssign Prog.color Uniform.u_texture_0 0) = 1 ∧
      onInitTrace.count (GLEvent.samplerAssign Prog.color Uniform.shadowMap 1) = 1 ∧
      onInitTrace.count (GLEvent.uniformWrite Prog.color Uniform.light_position) = 1 ∧
      onInitTrace.count (GLEvent.uniformWrite Prog.color Uniform.light_Ia) = 1 ∧
      onInitTrace.count (GLEvent.uniformWrite Prog.color Uniform.light_Id) = 1 ∧
      onInitTrace.count (GLEvent.uniformWrite Prog.color Uniform.light_Is) = 1) ∧
      (∀ p : Prog, ∀ u : Uniform,
        GLEvent.uniformWrite p u ∈ updateTrace ++ updateShadowTrace ↔
          (p = Prog.color ∧
            (u = Uniform.camPos ∨ u = Uniform.m_view ∨ u = Uniform.m_model)) ∨
            (p = Prog.shadow ∧ u = Uniform.m_model)) ∧
      ((updateTrace ++ updateShadowTrace).all fun e =>
        match e with
        | GLEvent.samplerAssign _ _ _ => false
        | _ => true) = true := by
  refine ⟨by decide, by decide, by decide⟩

/-- C6 counterexample: the camera position uniform (`camPos`) is written by
`ExtendedBaseModel.update` every frame in the color pass, and it is neither
the model matrix nor the view matrix — so the per-frame uniform writes are
not limited to the model and view matrices. -/
theorem c6_camPos_written_every_frame :
    GLEvent.uniformWrite Prog.color Uniform.camPos ∈ updateTrace ∧
      Uniform.camPos ≠ Uniform.m_view ∧ Uniform.camPos ≠ Uniform.m_model := by
  decide

end SceneViewer
